import Mathlib

/-!
Verification of gh-csfs: a shallow embedding of the banner parser
(internal/csfs/ssh.go), the sync scheduler (internal/csfs/syncer.go), the
watch-set builder (internal/csfs/watcher.go) and the orchestrator's
readiness / cancellation handling (internal/csfs/app.go), together with
theorems settling the spec's claims about them.

Go byte slices are modelled as `List Char` (all relevant inputs are ASCII),
Go `int64` as `Int` with explicit range checks where the code checks them,
channels and goroutine interleavings as explicit transition systems, and
Go panics as distinguished result constructors.
-/

/-- Model of Go error values as used by this program: `context.Canceled`,
`context.DeadlineExceeded`, `errors.New(s)` and `fmt.Errorf("...: %w", e)`. -/
inductive GoError where
  | canceled : GoError
  | deadlineExceeded : GoError
  | msg (s : String) : GoError
  | wrapped (s : String) (e : GoError) : GoError
deriving DecidableEq

/-! ### Byte-level helpers mirroring the Go standard library -/

/-- `bytes.Split(l, sep)` for a one-byte separator: splits around every
occurrence of `sep`; `n` separators yield `n+1` (possibly empty) pieces.
`acc` holds the current piece, reversed. -/
def goSplitAcc (sep : Char) (acc : List Char) : List Char → List (List Char)
  | [] => [acc.reverse]
  | c :: rest =>
    if c = sep then acc.reverse :: goSplitAcc sep [] rest
    else goSplitAcc sep (c :: acc) rest

/-- `bytes.Split` with a single-byte separator. -/
def goSplit (sep : Char) (l : List Char) : List (List Char) :=
  goSplitAcc sep [] l

/-- Decimal digit value of a character, if it is one. -/
def digitVal? (c : Char) : Option Nat :=
  if '0' ≤ c ∧ c ≤ '9' then some (c.toNat - '0'.toNat) else none

/-- Accumulating decimal parse: fails on the first non-digit. -/
def parseDigitsAcc (acc : Nat) : List Char → Option Nat
  | [] => some acc
  | c :: rest =>
    match digitVal? c with
    | some d => parseDigitsAcc (acc * 10 + d) rest
    | none => none

/-- Parse a nonempty all-digit string; `none` on empty input or any
non-digit. -/
def parseDigits : List Char → Option Nat
  | [] => none
  | l => parseDigitsAcc 0 l

/-- Largest value of a Go `int64`. -/
def maxInt64 : Nat := 2 ^ 63 - 1

/-- `strconv.ParseInt(s, 10, 0)` on a 64-bit platform: optional sign,
nonempty digit run, result must fit in `int64`; `none` models the error
return. -/
def goParseInt : List Char → Option Int
  | [] => none
  | '+' :: rest =>
    (parseDigits rest).bind fun n =>
      if n ≤ maxInt64 then some (n : Int) else none
  | '-' :: rest =>
    (parseDigits rest).bind fun n =>
      if n ≤ maxInt64 + 1 then some (-(n : Int)) else none
  | l =>
    (parseDigits l).bind fun n =>
      if n ≤ maxInt64 then some (n : Int) else none

/-! ### The banner parser: `(*writer).Write` in internal/csfs/ssh.go -/

/-- `sshServerConn` from ssh.go: the parsed connection parameters
(`Username []byte`, `Port int64`). -/
structure sshServerConn where
  Username : List Char
  Port : Int
deriving DecidableEq

/-- The events `(*writer).Write` can produce: an error sent on `errch`
(one constructor per distinct failure message) or the connection
parameters sent on the `ready` channel. -/
inductive WriteEvent where
  | errInvalidDetails : WriteEvent
  | errInvalidUsername : WriteEvent
  | errInvalidPort : WriteEvent
  | ready (c : sshServerConn) : WriteEvent
deriving DecidableEq

/-- Result of one `Write` call: the returned byte count and emitted
events together with the new state of the `ready` channel, or a Go
runtime panic (send on a closed channel). -/
inductive WriteOutcome where
  | ok (n : Nat) (events : List WriteEvent) (readyClosed : Bool) : WriteOutcome
  | panicked : WriteOutcome
deriving DecidableEq

/-- The banner marker the writer looks for at the start of a chunk. -/
def connectionDetailsMarker : List Char := "Connection Details".data

/-- `(*writer).Write(p)` from ssh.go, lines 106-135.  `readyClosed`
records whether `close(w.ready)` has already run.  If the chunk starts
with the marker it is split on single spaces; fewer than 6 parts, a 4th
part without exactly one `@`, or an unparseable 6th part each send one
error on `errch` (never blocking: `errch` has capacity 3) and return the
part count (the Go code shadows `p` with the split slice).  Otherwise the
connection parameters are sent on `ready` and `ready` is closed; a send
after the close is a Go panic. -/
def writerWrite (readyClosed : Bool) (p : List Char) : WriteOutcome :=
  if connectionDetailsMarker.isPrefixOf p then
    let parts := goSplit ' ' p
    if parts.length < 6 then
      .ok parts.length [.errInvalidDetails] readyClosed
    else
      let uhost := goSplit '@' (parts.getD 3 [])
      if uhost.length ≠ 2 then
        .ok parts.length [.errInvalidUsername] readyClosed
      else
        match goParseInt (parts.getD 5 []) with
        | none => .ok parts.length [.errInvalidPort] readyClosed
        | some port =>
          if readyClosed then .panicked
          else .ok p.length [.ready ⟨uhost.getD 0 [], port⟩] true
  else
    .ok p.length [] readyClosed

/-- Result of feeding a sequence of chunks to the writer: the events
emitted in order and the final channel state, or the events emitted
before a chunk panicked. -/
inductive ChunksOutcome where
  | ok (events : List WriteEvent) (readyClosed : Bool) : ChunksOutcome
  | panicked (events : List WriteEvent) : ChunksOutcome
deriving DecidableEq

/-- Feed each chunk of `cs` to `writerWrite` in order, threading the
`ready`-channel state and accumulating events. -/
def processChunks (readyClosed : Bool) : List (List Char) → ChunksOutcome
  | [] => .ok [] readyClosed
  | c :: rest =>
    match writerWrite readyClosed c with
    | .ok _ evs closed' =>
      match processChunks closed' rest with
      | .ok evs' cl => .ok (evs ++ evs') cl
      | .panicked evs' => .panicked (evs ++ evs')
    | .panicked => .panicked []

/-- The events of a run, whether or not it panicked. -/
def ChunksOutcome.events : ChunksOutcome → List WriteEvent
  | .ok evs _ => evs
  | .panicked evs => evs

/-- The connection parameters emitted on the readiness channel during a
run, in order. -/
def readyEvents (l : List WriteEvent) : List sshServerConn :=
  l.filterMap fun e =>
    match e with
    | .ready c => some c
    | _ => none

/-- Whether an event is one of the writer's error reports. -/
def WriteEvent.isErr : WriteEvent → Bool
  | .ready _ => false
  | _ => true

/-! ### The sync scheduler: internal/csfs/syncer.go -/

/-- `syncType` from syncer.go: which direction/mode a completed transfer
had. -/
inductive syncType where
  | codespace : syncType
  | local : syncType
  | localWithDeletion : syncType
deriving DecidableEq

/-- The remote-shell override `fmt.Sprintf("ssh -p %d -o
NoHostAuthenticationForLocalhost=yes -o PasswordAuthentication=no",
s.port)` from `syncer.sync`. -/
def sshRemoteShell (port : Int) : String :=
  "ssh -p " ++ toString port ++
    " -o NoHostAuthenticationForLocalhost=yes -o PasswordAuthentication=no"

/-- `srcDirWithSuffix` from syncer.go, lines 120-125: append a trailing
slash unless the last byte already is one.  `none` models the Go
index-out-of-range panic of `src[len(src)-1]` on an empty string. -/
def srcDirWithSuffix (src : String) : Option String :=
  match src.data.getLast? with
  | none => none
  | some c => if c ≠ '/' then some (src ++ "/") else some src

/-- The argument list `syncer.sync` (syncer.go lines 85-102) builds for
the `rsync` invocation: fixed flags, the remote-shell override, an
optional `--delete`, one `--exclude <path>` pair per excluded path, then
the slash-suffixed source and the destination.  `none` models the panic
of `srcDirWithSuffix` on an empty source. -/
def syncArgs (port : Int) (deleteFiles : Bool) (excludePaths : List String)
    (src dest : String) : Option (List String) :=
  let args := ["--archive", "--compress", "--update", "--perms",
    "--hard-links", "-e", sshRemoteShell port]
  let args := if deleteFiles then args ++ ["--delete"] else args
  let args := args ++ excludePaths.flatMap fun e => ["--exclude", e]
  (srcDirWithSuffix src).map fun s => args ++ [s, dest]

/-! #### Interleaving model of the scheduler's goroutines

`syncer.Sync` (syncer.go lines 69-83) runs in its own goroutine: every
debounce tick it blocks on `<-s.syncToCodespace` and then runs one
outbound `s.sync`.  `syncer.SyncToCodespace` (lines 62-67) performs a
non-blocking send on that channel, which is UNBUFFERED
(`make(chan struct{})` in `newSyncer`), so the send succeeds only while
the loop goroutine is parked at the receive; otherwise the `default`
branch drops the signal.  `syncer.SyncToLocal` (lines 58-60) calls
`s.sync` directly from the caller's goroutine with no synchronization
against the loop.  The ticker channel has capacity one, so at most one
tick is pending. -/

/-- Where the `syncer.Sync` loop goroutine currently is. -/
inductive LoopState where
  | waitingTick : LoopState
  | waitingSignal : LoopState
  | syncingOut : LoopState
deriving DecidableEq

/-- Global state of the scheduler's goroutines: the loop's position, the
pending-tick flag (capacity-one ticker channel), whether an on-demand
`SyncToLocal` transfer is executing, and how many outbound transfers
have completed. -/
structure SyncSys where
  loop : LoopState
  pendingTick : Bool
  inbound : Bool
  outCount : Nat
deriving DecidableEq

/-- Initial state: the loop is waiting for its first tick, nothing is in
flight. -/
def syncInit : SyncSys := ⟨.waitingTick, false, false, 0⟩

/-- Atomic scheduler actions: a ticker tick fires, a caller invokes
`SyncToCodespace` (notify), the outbound `rsync` completes, a caller
enters / leaves `SyncToLocal`. -/
inductive SyncAct where
  | tick : SyncAct
  | notify : SyncAct
  | outEnd : SyncAct
  | inStart : SyncAct
  | inEnd : SyncAct
deriving DecidableEq

/-- One interleaving step.  `notify` is total (the select/default send
never blocks its caller); on an unbuffered channel it hands the signal
over only when the loop is parked at the receive, and is dropped — not
queued — otherwise.  `inStart` is enabled in every state because
`SyncToLocal` takes no lock. -/
def syncStep (s : SyncSys) : SyncAct → SyncSys
  | .tick =>
    match s.loop with
    | .waitingTick => { s with loop := .waitingSignal }
    | _ => { s with pendingTick := true }
  | .notify =>
    match s.loop with
    | .waitingSignal => { s with loop := .syncingOut }
    | _ => s
  | .outEnd =>
    match s.loop with
    | .syncingOut =>
      if s.pendingTick then
        { s with loop := .waitingSignal, pendingTick := false, outCount := s.outCount + 1 }
      else
        { s with loop := .waitingTick, outCount := s.outCount + 1 }
    | _ => s
  | .inStart => { s with inbound := true }
  | .inEnd => { s with inbound := false }

/-- Run a sequence of interleaving steps. -/
def syncRun (s : SyncSys) : List SyncAct → SyncSys
  | [] => s
  | a :: rest => syncRun (syncStep s a) rest

/-- Events the `syncer.Sync` loop can select on, for its return value:
context cancellation, or a tick followed by a received signal whose
transfer succeeds (`none`) or fails with an error. -/
inductive SyncLoopEv where
  | ctxDone : SyncLoopEv
  | tickSync (res : Option GoError) : SyncLoopEv
deriving DecidableEq

/-- Return value of `syncer.Sync` (syncer.go lines 69-83) along a
sequence of select outcomes: `some r` means the loop returned `r`
(`none` being Go `nil`), `none` means it is still looping.  Cancellation
returns `nil`; a failed transfer returns its error. -/
def syncerSyncResult : List SyncLoopEv → Option (Option GoError)
  | [] => none
  | .ctxDone :: _ => some none
  | .tickSync none :: rest => syncerSyncResult rest
  | .tickSync (some e) :: _ => some (some e)

/-! ### Go `path.Clean` and `path.Join`, used by the watch-set builder -/

/-- The backtracking step of `path.Clean`'s `..` handling: pop the last
output byte, then keep popping while the output is still longer than
`dotdot` and the popped byte is not a slash.  `out` is the output buffer
in reverse order. -/
def popSegment (dotdot : Nat) : List Char → List Char
  | [] => []
  | c :: rest =>
    if rest.length > dotdot ∧ c ≠ '/' then popSegment dotdot rest else rest

/-- The main loop of Go `path.Clean`, transliterated: `out` is the
output buffer in reverse order, `dotdot` the limit below which `..` may
not erase, `cs` the unread input.  `fuel` bounds the recursion; every
step consumes at least one input byte, so `cs.length` fuel suffices. -/
def pathCleanLoop (rooted : Bool) : Nat → Nat → List Char → List Char → List Char
  | _, _, out, [] => out
  | 0, _, out, _ => out
  | fuel + 1, dotdot, out, c :: rest =>
    if c = '/' then
      pathCleanLoop rooted fuel dotdot out rest
    else if c = '.' ∧ (rest = [] ∨ rest.head? = some '/') then
      pathCleanLoop rooted fuel dotdot out rest
    else if c = '.' ∧ rest.head? = some '.' ∧
        (rest.tail = [] ∨ rest.tail.head? = some '/') then
      if out.length > dotdot then
        pathCleanLoop rooted fuel dotdot (popSegment dotdot out) rest.tail
      else if ¬rooted then
        let out' := '.' :: '.' :: (if out.length > 0 then '/' :: out else out)
        pathCleanLoop rooted fuel out'.length out' rest.tail
      else
        pathCleanLoop rooted fuel dotdot out rest.tail
    else
      let sep := (rooted ∧ out.length ≠ 1) ∨ (¬rooted ∧ out.length ≠ 0)
      let seg := (c :: rest).takeWhile (· ≠ '/')
      let rem := (c :: rest).dropWhile (· ≠ '/')
      pathCleanLoop rooted fuel dotdot
        (seg.reverse ++ (if sep then '/' :: out else out)) rem

/-- Go `path.Clean`. -/
def pathClean (p : String) : String :=
  match p.data with
  | [] => "."
  | c :: rest =>
    let rooted := c = '/'
    let out :=
      if rooted then pathCleanLoop true (p.data.length) 1 ['/'] rest
      else pathCleanLoop false (p.data.length) 0 [] (c :: rest)
    if out.length = 0 then "." else ⟨out.reverse⟩

/-- Go `path.Join` on two elements: empty elements are skipped, the rest
are joined with a slash, and the result is cleaned. -/
def pathJoin (a b : String) : String :=
  if a = "" ∧ b = "" then ""
  else if a = "" then pathClean b
  else if b = "" then pathClean a
  else pathClean (a ++ "/" ++ b)

/-! ### The watch-set builder: `newWatcher` in internal/csfs/watcher.go -/

/-- Result of building the exclude set or the watch set: the Go code
panics with an index-out-of-range when it evaluates `exclude[0]` on an
empty pattern. -/
inductive ExcResult where
  | ok (paths : List String) : ExcResult
  | panicIndexOutOfRange : ExcResult
deriving DecidableEq

/-- The exclude-resolution loop of `newWatcher` (watcher.go lines
18-25): each pattern whose first byte is not `/` is joined to the local
root with `path.Join`; a pattern with a leading `/` is kept as-is; an
empty pattern panics at `exclude[0]`.  The Go map used as a set is
modelled as a list queried by membership. -/
def newWatcherExcludeSet (localDir : String) : List String → ExcResult
  | [] => .ok []
  | e :: rest =>
    match e.data with
    | [] => .panicIndexOutOfRange
    | c :: _ =>
      let r := if c ≠ '/' then pathJoin localDir e else e
      match newWatcherExcludeSet localDir rest with
      | .ok l => .ok (r :: l)
      | .panicIndexOutOfRange => .panicIndexOutOfRange

/-- A filesystem tree: a directory with named children, or a file.
Children are listed in lexical order, the order in which `filepath.Walk`
visits them. -/
inductive FSTree where
  | dir (name : String) (children : List FSTree) : FSTree
  | file (name : String) : FSTree

/-- The name of a tree node. -/
def FSTree.name : FSTree → String
  | .dir n _ => n
  | .file n => n

/-- The walk callback of `newWatcher` (watcher.go lines 32-53) over
`filepath.Walk`: an excluded directory returns `filepath.SkipDir`,
pruning its whole subtree; an excluded file is skipped; every other
directory is added to the watcher; files are never added.  Child paths
are formed with `filepath.Join`.  `fuel` bounds the recursion depth and
any value at least the tree's depth is exact. -/
def walkDirs (excl : List String) : Nat → String → FSTree → List String
  | 0, _, _ => []
  | _ + 1, _, .file _ => []
  | fuel + 1, path, .dir _ children =>
    if path ∈ excl then []
    else
      path :: children.flatMap fun c => walkDirs excl fuel (pathJoin path c.name) c

/-- All directory paths of a tree (no exclusion, no files): the universe
the watch set draws from. -/
def dirPaths : Nat → String → FSTree → List String
  | 0, _, _ => []
  | _ + 1, _, .file _ => []
  | fuel + 1, path, .dir _ children =>
    path :: children.flatMap fun c => dirPaths fuel (pathJoin path c.name) c

/-- `newWatcher`'s watch-set construction (watcher.go lines 18-59):
resolve the exclude patterns against the local root, then walk the local
tree collecting every non-pruned directory. -/
def newWatcherDirs (localDir : String) (excludes : List String)
    (fuel : Nat) (tree : FSTree) : ExcResult :=
  match newWatcherExcludeSet localDir excludes with
  | .panicIndexOutOfRange => .panicIndexOutOfRange
  | .ok excl => .ok (walkDirs excl fuel localDir tree)

/-- Events `watcher.Watch` (watcher.go lines 61-73) can select on. -/
inductive WatchEv where
  | ctxDone : WatchEv
  | fsEvent : WatchEv
  | fsError (e : GoError) : WatchEv
deriving DecidableEq

/-- Return value of `watcher.Watch` along a sequence of select outcomes:
`some r` means the loop returned `r` (`none` being Go `nil`), `none`
means it is still looping.  On cancellation it returns `ctx.Err()`,
i.e. `context.Canceled` — not `nil`; a filesystem event triggers
`SyncToCodespace` and continues; a watcher error is returned. -/
def watchRun : List WatchEv → Option (Option GoError)
  | [] => none
  | .ctxDone :: _ => some (some .canceled)
  | .fsEvent :: rest => watchRun rest
  | .fsError e :: _ => some (some e)

/-! ### The orchestrator: internal/csfs/app.go -/

/-- `Codespace` from internal/csfs/codespaces.go. -/
structure Codespace where
  Name : String
  DisplayName : String
  Repository : String
  State : String
deriving DecidableEq

/-- `Codespace.Active`: the codespace is running iff its state is
`"Available"`. -/
def Codespace.Active (c : Codespace) : Bool :=
  c.State == "Available"

/-- The readiness timeout chosen by `App.Run` (app.go lines 87-92), in
seconds: 10 by default, raised to 120 when the codespace is not active
and must be started first. -/
def readinessTimeout (c : Codespace) : Nat :=
  if ¬c.Active then 120 else 10

/-- Which of `waitForSSHServer`'s three select arms fires first
(app.go lines 318-327): an error on `errch`, the context ending with
`ctx.Err()`, or the readiness signal. -/
inductive WaitOutcome where
  | errchFirst (e : GoError) : WaitOutcome
  | ctxDoneFirst (e : GoError) : WaitOutcome
  | readyFirst (c : sshServerConn) : WaitOutcome
deriving DecidableEq

/-- Result of the readiness phase. -/
inductive ReadyResult where
  | ok (c : sshServerConn) : ReadyResult
  | err (e : GoError) : ReadyResult
deriving DecidableEq

/-- `App.waitForSSHServer` (app.go lines 318-327): returns the first
arm's error or the connection parameters. -/
def waitForSSHServer : WaitOutcome → ReadyResult
  | .errchFirst e => .err e
  | .ctxDoneFirst e => .err e
  | .readyFirst c => .ok c

/-- `App.Run`'s handling of the readiness wait (app.go lines 96-106):
`context.DeadlineExceeded` is turned into the distinct error
`errors.New("SSH Server timed out")`; any other failure is wrapped as
`"ssh server ready failed: %w"`. -/
def runReadiness (o : WaitOutcome) : ReadyResult :=
  match waitForSSHServer o with
  | .err e =>
    if e = .deadlineExceeded then .err (.msg "SSH Server timed out")
    else .err (.wrapped "ssh server ready failed" e)
  | .ok c => .ok c

/-- Events `App.Run`'s dispatch loop (app.go lines 150-170) can select
on: context cancellation, a background task's failure on `errch`, the
exit channel (filled by a quit key), a sync notification (displayed,
loop continues), or a non-quit key event (processed, loop continues). -/
inductive DispatchEv where
  | ctxDone : DispatchEv
  | errch (e : GoError) : DispatchEv
  | exitCh : DispatchEv
  | syncEvent (t : syncType) : DispatchEv
  | keyEvent : DispatchEv
deriving DecidableEq

/-- Return value of the dispatch loop along a sequence of select
outcomes: cancellation returns `ctx.Err()` (`context.Canceled`, not
`nil`); a task failure returns it; the exit channel returns `nil`. -/
def dispatchResult : List DispatchEv → Option (Option GoError)
  | [] => none
  | .ctxDone :: _ => some (some .canceled)
  | .errch e :: _ => some (some e)
  | .exitCh :: _ => some none
  | .syncEvent _ :: rest => dispatchResult rest
  | .keyEvent :: rest => dispatchResult rest

/-- The exclude list `App.setupSyncer` (app.go lines 186-207) hands to
the syncer and hence to `newWatcher`: `".git"` followed by the
`--exclude` flag's values, passed through unvalidated. -/
def setupSyncerExcludes (exclude : List String) : List String :=
  ".git" :: exclude

/-! ### Concrete trees for the watch-set scenario -/

/-- The claim's scenario tree: the local root contains `a/` and `b/`,
and `a/` contains `.git/`. -/
def c4Tree : FSTree := .dir "root" [.dir "a" [.dir ".git" []], .dir "b" []]

/-- A variant with a `.git/objects/` subtree directly under the root and
a file, to exhibit subtree pruning and the absence of files. -/
def c4TreeWithRootGit : FSTree :=
  .dir "root" [.dir ".git" [.dir "objects" []], .dir "a" [.dir ".git" []],
    .dir "b" [.file "f.txt"]]

/-! ### Helper lemmas -/

/-- A string has empty character data exactly when it is empty. -/
theorem dataEqNilIff (s : String) : s.data = [] ↔ s = "" := by
  constructor
  · intro h
    exact String.ext h
  · intro h
    subst h
    rfl

/-- Every path the walk collects is the path of a directory node of the
tree: the watch set never contains a file. -/
theorem walkDirs_mem_dirPaths (excl : List String) :
    ∀ (fuel : Nat) (path : String) (t : FSTree) (q : String),
      q ∈ walkDirs excl fuel path t → q ∈ dirPaths fuel path t := by
  intro fuel
  induction fuel with
  | zero =>
    intro path t q hq
    simp [walkDirs] at hq
  | succ n ih =>
    intro path t q hq
    cases t with
    | file nm => simp [walkDirs] at hq
    | dir nm children =>
      rw [walkDirs] at hq
      by_cases hx : path ∈ excl
      · simp [hx] at hq
      · rw [if_neg hx] at hq
        rcases List.mem_cons.mp hq with rfl | hq'
        · rw [dirPaths]
          exact List.mem_cons_self _ _
        · rcases List.mem_flatMap.mp hq' with ⟨c, hc, hqc⟩
          rw [dirPaths]
          exact List.mem_cons_of_mem _ (List.mem_flatMap.mpr ⟨c, hc, ih _ _ _ hqc⟩)

/-! ### The claims -/

/-- C1, counterexample: the banner split as
`["Connection ", "Details: ssh dev@host -p 54321 ok"]` concatenates to
the full banner, yet the writer emits no `ConnectionParams` at all,
while the same bytes in a single chunk do produce
`{username: "dev", port: 54321}` — so `writer.Write` does NOT emit the
same parameters regardless of how the bytes are split across chunks. -/
theorem C1_counterexample_split_banner :
    "Connection ".data ++ "Details: ssh dev@host -p 54321 ok".data
      = "Connection Details: ssh dev@host -p 54321 ok".data
    ∧ readyEvents (processChunks false
        ["Connection ".data, "Details: ssh dev@host -p 54321 ok".data]).events = []
    ∧ readyEvents (processChunks false
        ["Connection Details: ssh dev@host -p 54321 ok".data]).events
      = [⟨"dev".data, 54321⟩] := by
  decide

/-- C1, amended: whenever a single chunk begins with the marker and its
space-split has at least 6 tokens, a 4th token with exactly one `@` and
a numeric 6th token, `writer.Write` emits exactly one `ConnectionParams`
whose username is the part before `@` of the 4th token and whose port is
the numeric 6th token, and then closes the readiness channel — the
outcome is a function of the individual chunk, not of the concatenated
stream. -/
theorem C1_single_chunk_banner (p u h : List Char) (port : Int)
    (hpre : connectionDetailsMarker.isPrefixOf p = true)
    (hlen : 6 ≤ (goSplit ' ' p).length)
    (huh : goSplit '@' ((goSplit ' ' p).getD 3 []) = [u, h])
    (hport : goParseInt ((goSplit ' ' p).getD 5 []) = some port) :
    writerWrite false p = .ok p.length [.ready ⟨u, port⟩] true := by
  unfold writerWrite
  rw [if_pos hpre]
  simp only [huh, hport]
  rw [if_neg (by omega)]
  simp

/-- C1, witness: the amended theorem applied to the scenario banner
`Connection Details: ssh dev@host -p 54321 ok`. -/
theorem C1_single_chunk_banner_witness :
    connectionDetailsMarker.isPrefixOf "Connection Details: ssh dev@host -p 54321 ok".data = true
    ∧ 6 ≤ (goSplit ' ' "Connection Details: ssh dev@host -p 54321 ok".data).length
    ∧ goSplit '@' ((goSplit ' ' "Connection Details: ssh dev@host -p 54321 ok".data).getD 3 [])
      = ["dev".data, "host".data]
    ∧ goParseInt ((goSplit ' ' "Connection Details: ssh dev@host -p 54321 ok".data).getD 5 [])
      = some 54321
    ∧ writerWrite false "Connection Details: ssh dev@host -p 54321 ok".data
      = .ok "Connection Details: ssh dev@host -p 54321 ok".data.length
          [.ready ⟨"dev".data, 54321⟩] true :=
  ⟨by decide, by decide, by decide, by decide,
    C1_single_chunk_banner "Connection Details: ssh dev@host -p 54321 ok".data
      "dev".data "host".data 54321 (by decide) (by decide) (by decide) (by decide)⟩

/-- C2: the signal channel is unbuffered, so a `SyncToCodespace` call
made while the outbound loop is still waiting for its first tick is
dropped entirely — the interval ends with ZERO outbound transfers and
the loop parked at its receive, contradicting the claimed
exactly-one-transfer coalescing (the claim's never-block and
dropped-not-queued parts do hold: the last conjunct shows a notify in
any non-receiving state leaves the system unchanged). -/
theorem C2_unbuffered_signal_lost :
    (syncRun syncInit [.notify, .tick]).outCount = 0
    ∧ (syncRun syncInit [.notify, .tick]).loop = .waitingSignal
    ∧ (∀ s : SyncSys, s.loop ≠ .waitingSignal → syncStep s .notify = s) := by
  refine ⟨by decide, by decide, ?_⟩
  intro s h
  cases hl : s.loop with
  | waitingTick => simp [syncStep, hl]
  | waitingSignal => exact absurd hl h
  | syncingOut => simp [syncStep, hl]

/-- C2, witness: the dropped-not-queued conjunct applied to the initial
state, whose loop is not at the receive. -/
theorem C2_unbuffered_signal_lost_witness :
    syncInit.loop ≠ LoopState.waitingSignal
    ∧ syncStep syncInit .notify = syncInit :=
  ⟨by decide, C2_unbuffered_signal_lost.2.2 syncInit (by decide)⟩

/-- C3: the syncer takes no lock, so the interleaving tick → notify →
`SyncToLocal` start reaches a state in which the outbound loop's
transfer and an on-demand inbound transfer are both in flight — the
transfers are NOT serialized. -/
theorem C3_concurrent_transfers_reachable :
    (syncRun syncInit [.tick, .notify, .inStart]).loop = .syncingOut
    ∧ (syncRun syncInit [.tick, .notify, .inStart]).inbound = true := by
  decide

/-- C4, counterexample: for the scenario root containing `a/`,
`a/.git/`, `b/` with excludes `[".git"]`, the built watch set is
`{root, root/a, root/a/.git, root/b}` — `root/a/.git` is watched, not
pruned, because `".git"` resolves to the exact path `root/.git` only. -/
theorem C4_counterexample_nested_git :
    newWatcherDirs "/work/root" [".git"] 8 c4Tree
      = .ok ["/work/root", "/work/root/a", "/work/root/a/.git", "/work/root/b"]
    ∧ "/work/root/a/.git" ∉ (["/work/root", "/work/root/a", "/work/root/b"] : List String) := by
  decide

/-- C4, amended: an exclude pattern prunes exactly the one directory at
its resolved absolute path together with its whole subtree (shown by the
variant tree whose `root/.git/objects` disappears with `root/.git`); for
the scenario tree nothing matches, so the watch set keeps
`root/a/.git`; and the result only ever contains directory paths, never
files. -/
theorem C4_exact_path_pruning :
    (newWatcherDirs "/work/root" [".git"] 8 c4Tree
      = .ok ["/work/root", "/work/root/a", "/work/root/a/.git", "/work/root/b"])
    ∧ (newWatcherDirs "/work/root" [".git"] 8 c4TreeWithRootGit
      = .ok ["/work/root", "/work/root/a", "/work/root/a/.git", "/work/root/b"])
    ∧ (∀ (excl : List String) (fuel : Nat) (path : String) (t : FSTree) (q : String),
        q ∈ walkDirs excl fuel path t → q ∈ dirPaths fuel path t) :=
  ⟨by decide, by decide, fun excl => walkDirs_mem_dirPaths excl⟩

/-- C4, witness: the only-directories conjunct applied to a one-node
tree. -/
theorem C4_exact_path_pruning_witness :
    "/r" ∈ walkDirs [] 1 "/r" (.dir "root" [])
    ∧ "/r" ∈ dirPaths 1 "/r" (.dir "root" []) :=
  ⟨by decide, C4_exact_path_pruning.2.2 [] 1 "/r" (.dir "root" []) "/r" (by decide)⟩

/-- C5, counterexample: on plain cancellation it is NOT the case that
`watcher.Watch`, `syncer.Sync` and the dispatch loop all return no
error — `watcher.Watch` and the dispatch loop return `ctx.Err()`
(`context.Canceled`). -/
theorem C5_counterexample_cancellation :
    ¬(watchRun [.ctxDone] = some none
      ∧ syncerSyncResult [.ctxDone] = some none
      ∧ dispatchResult [.ctxDone] = some none) := by
  decide

/-- C5, amended: on cancellation `syncer.Sync` returns nil, but
`watcher.Watch` returns `context.Canceled` and `App.Run`'s dispatch loop
returns `ctx.Err()` (`context.Canceled`); the dispatch loop returns nil
only on a clean quit through the exit channel. -/
theorem C5_cancellation_results :
    syncerSyncResult [.ctxDone] = some none
    ∧ watchRun [.ctxDone] = some (some .canceled)
    ∧ dispatchResult [.ctxDone] = some (some .canceled)
    ∧ dispatchResult [.exitCh] = some none := by
  decide

/-- C6: when the readiness wait ends with `context.DeadlineExceeded` the
session returns the distinct error `SSH Server timed out` — which is not
a wrapped generic error — and the configured timeout is 10 seconds for
an active codespace and 120 seconds for one that must be started. -/
theorem C6_timeout_distinct_error :
    runReadiness (.ctxDoneFirst .deadlineExceeded) = .err (.msg "SSH Server timed out")
    ∧ (∀ (s : String) (e : GoError), GoError.msg "SSH Server timed out" ≠ .wrapped s e)
    ∧ (∀ c : Codespace, c.Active = true → readinessTimeout c = 10)
    ∧ (∀ c : Codespace, c.Active = false → readinessTimeout c = 120) := by
  refine ⟨by decide, ?_, ?_, ?_⟩
  · intro s e h
    cases h
  · intro c h
    simp [readinessTimeout, h]
  · intro c h
    simp [readinessTimeout, h]

/-- C6, witness: the timeout conjuncts applied to an `Available` and a
`Shutdown` codespace. -/
theorem C6_timeout_distinct_error_witness :
    (Codespace.mk "n" "dn" "owner/repo" "Available").Active = true
    ∧ readinessTimeout (Codespace.mk "n" "dn" "owner/repo" "Available") = 10
    ∧ (Codespace.mk "n" "dn" "owner/repo" "Shutdown").Active = false
    ∧ readinessTimeout (Codespace.mk "n" "dn" "owner/repo" "Shutdown") = 120 :=
  ⟨by decide, C6_timeout_distinct_error.2.2.1 _ (by decide), by decide,
    C6_timeout_distinct_error.2.2.2 _ (by decide)⟩

/-- C7: every chunk that starts with the banner marker but is malformed
— fewer than 6 space-separated tokens, a 4th token without exactly one
`@`, or a non-numeric 6th token — makes `writer.Write` emit exactly one
event, an error on the error channel, and nothing on the readiness
channel, whose state is left unchanged. -/
theorem C7_malformed_banner_error (p : List Char) (closed : Bool)
    (hpre : connectionDetailsMarker.isPrefixOf p = true)
    (hbad : (goSplit ' ' p).length < 6
      ∨ (goSplit '@' ((goSplit ' ' p).getD 3 [])).length ≠ 2
      ∨ goParseInt ((goSplit ' ' p).getD 5 []) = none) :
    ∃ ev, writerWrite closed p = .ok (goSplit ' ' p).length [ev] closed
      ∧ ev.isErr = true := by
  unfold writerWrite
  rw [if_pos hpre]
  by_cases h6 : (goSplit ' ' p).length < 6
  · rw [if_pos h6]
    exact ⟨_, rfl, rfl⟩
  · rw [if_neg h6]
    by_cases hu : (goSplit '@' ((goSplit ' ' p).getD 3 [])).length ≠ 2
    · rw [if_pos hu]
      exact ⟨_, rfl, rfl⟩
    · rw [if_neg hu]
      have hp : goParseInt ((goSplit ' ' p).getD 5 []) = none := by tauto
      simp only [hp]
      exact ⟨_, rfl, rfl⟩

/-- C7, witness: the theorem applied to a marker-prefixed chunk whose
4th token has no `@`. -/
theorem C7_malformed_banner_error_witness :
    connectionDetailsMarker.isPrefixOf "Connection Details: ssh devhost -p 54321 x".data = true
    ∧ ((goSplit ' ' "Connection Details: ssh devhost -p 54321 x".data).length < 6
      ∨ (goSplit '@' ((goSplit ' ' "Connection Details: ssh devhost -p 54321 x".data).getD 3 [])).length ≠ 2
      ∨ goParseInt ((goSplit ' ' "Connection Details: ssh devhost -p 54321 x".data).getD 5 []) = none)
    ∧ ∃ ev, writerWrite false "Connection Details: ssh devhost -p 54321 x".data
        = .ok (goSplit ' ' "Connection Details: ssh devhost -p 54321 x".data).length [ev] false
      ∧ ev.isErr = true :=
  ⟨by decide, by decide,
    C7_malformed_banner_error _ false (by decide) (by decide)⟩

/-- C8: for every nonempty source path the transfer command is built
with the archive, compress, update, perms and hard-links flags and the
port-embedding remote-shell override, appends `--delete` exactly when
deletion is requested, appends one `--exclude <path>` pair per excluded
path, and ends with the source — always carrying a trailing slash — and
the destination. -/
theorem C8_rsync_invocation (port : Int) (deleteFiles : Bool)
    (excludePaths : List String) (src dest : String) (hsrc : src ≠ "") :
    ∃ s, srcDirWithSuffix src = some s
      ∧ s.data.getLast? = some '/'
      ∧ syncArgs port deleteFiles excludePaths src dest
        = some (["--archive", "--compress", "--update", "--perms", "--hard-links",
            "-e", sshRemoteShell port]
          ++ (if deleteFiles then ["--delete"] else [])
          ++ (excludePaths.flatMap fun e => ["--exclude", e])
          ++ [s, dest]) := by
  have hd : src.data ≠ [] := fun hnil => hsrc ((dataEqNilIff src).mp hnil)
  obtain ⟨c, hc⟩ : ∃ c, src.data.getLast? = some c := by
    cases hl : src.data.getLast? with
    | none => exact absurd (List.getLast?_eq_none_iff.mp hl) hd
    | some c => exact ⟨c, rfl⟩
  by_cases hcs : c = '/'
  · subst hcs
    refine ⟨src, ?_, hc, ?_⟩
    · simp [srcDirWithSuffix, hc]
    · simp only [syncArgs, srcDirWithSuffix, hc]
      cases deleteFiles <;> simp [List.append_assoc]
  · refine ⟨src ++ "/", ?_, ?_, ?_⟩
    · simp [srcDirWithSuffix, hc, hcs]
    · rw [String.data_append]
      exact List.getLast?_concat _
    · simp only [syncArgs, srcDirWithSuffix, hc]
      rw [if_pos hcs]
      cases deleteFiles <;> simp [List.append_assoc]

/-- C8, witness: the theorem applied to a deletion-enabled transfer of
`/w/ws` with one exclude. -/
theorem C8_rsync_invocation_witness :
    ("/w/ws" : String) ≠ ""
    ∧ ∃ s, srcDirWithSuffix "/w/ws" = some s
      ∧ s.data.getLast? = some '/'
      ∧ syncArgs 54321 true [".git"] "/w/ws" "dev@localhost:/workspaces/ws"
        = some (["--archive", "--compress", "--update", "--perms", "--hard-links",
            "-e", sshRemoteShell 54321]
          ++ (if true then ["--delete"] else [])
          ++ ([".git"].flatMap fun e => ["--exclude", e])
          ++ [s, "dev@localhost:/workspaces/ws"]) :=
  ⟨by decide, C8_rsync_invocation 54321 true [".git"] "/w/ws" "dev@localhost:/workspaces/ws" (by decide)⟩

/-- C9: after a successful parse the writer is NOT inert — a second
chunk carrying a banner parses again and attempts a second send on the
already-closed readiness channel, which is a Go runtime panic, not a
silent ignore. -/
theorem C9_second_banner_panics :
    processChunks false
      ["Connection Details: ssh dev@host -p 54321 ok".data,
        "Connection Details: ssh dev@host -p 54321 ok".data]
    = .panicked [.ready ⟨"dev".data, 54321⟩] := by
  decide

/-- C10: an empty pattern anywhere in the exclude list — reachable from
the `--exclude` flag, whose values `setupSyncer` passes through
unvalidated behind `".git"` — makes `newWatcher`'s resolution loop panic
with an index-out-of-range; when no pattern is empty, every pattern with
a leading `/` is kept as-is and every other pattern is joined to the
local root. -/
theorem C10_exclude_resolution :
    (∀ (localDir : String) (excludes : List String),
      "" ∈ excludes → newWatcherExcludeSet localDir excludes = .panicIndexOutOfRange)
    ∧ (∀ (localDir : String) (userExclude : List String),
      "" ∈ userExclude →
        newWatcherExcludeSet localDir (setupSyncerExcludes userExclude)
          = .panicIndexOutOfRange)
    ∧ (∀ (localDir : String) (excludes : List String),
      "" ∉ excludes →
        newWatcherExcludeSet localDir excludes
          = .ok (excludes.map fun e =>
              if e.data.head? = some '/' then e else pathJoin localDir e)) := by
  have h1 : ∀ (localDir : String) (excludes : List String),
      "" ∈ excludes → newWatcherExcludeSet localDir excludes = .panicIndexOutOfRange := by
    intro localDir excludes
    induction excludes with
    | nil =>
      intro h
      simp at h
    | cons e rest ih =>
      intro h
      cases he : e.data with
      | nil => simp [newWatcherExcludeSet, he]
      | cons c cs =>
        have hne : e ≠ "" := by
          intro h'
          rw [h'] at he
          simp at he
        have hrest : "" ∈ rest := by
          rcases List.mem_cons.mp h with h' | h'
          · exact absurd h'.symm hne
          · exact h'
        simp [newWatcherExcludeSet, he, ih hrest]
  refine ⟨h1, ?_, ?_⟩
  · intro localDir userExclude h
    exact h1 localDir _ (List.mem_cons_of_mem _ h)
  · intro localDir excludes
    induction excludes with
    | nil =>
      intro _
      simp [newWatcherExcludeSet]
    | cons e rest ih =>
      intro h
      have hne : e ≠ "" := fun h' => h (h' ▸ List.mem_cons_self _ _)
      obtain ⟨c, cs, hd⟩ : ∃ c cs, e.data = c :: cs := by
        cases hdata : e.data with
        | nil => exact absurd ((dataEqNilIff e).mp hdata) hne
        | cons c cs => exact ⟨c, cs, rfl⟩
      have hrest : "" ∉ rest := fun hm => h (List.mem_cons_of_mem _ hm)
      simp only [newWatcherExcludeSet, hd, ih hrest, List.map]
      by_cases hc : c = '/' <;> simp [hc]

/-- C10, witness: the three conjuncts applied to concrete exclude
lists. -/
theorem C10_exclude_resolution_witness :
    ("" ∈ ["x", ""])
    ∧ newWatcherExcludeSet "/w/r" ["x", ""] = .panicIndexOutOfRange
    ∧ ("" ∈ [""])
    ∧ newWatcherExcludeSet "/w/r" (setupSyncerExcludes [""]) = .panicIndexOutOfRange
    ∧ ("" ∉ [".git", "/abs"])
    ∧ newWatcherExcludeSet "/w/r" [".git", "/abs"]
      = .ok ([".git", "/abs"].map fun e =>
          if e.data.head? = some '/' then e else pathJoin "/w/r" e) :=
  ⟨by decide, C10_exclude_resolution.1 "/w/r" _ (by decide), by decide,
    C10_exclude_resolution.2.1 "/w/r" _ (by decide), by decide,
    C10_exclude_resolution.2.2 "/w/r" _ (by decide)⟩
